import Mathlib

/-!
# Verification of the ExpenseTracker backend (src/backend/server.py)

Shallow embedding of the transaction/session subsystem.  The MongoDB
collections `db.users`, `db.user_sessions`, `db.transactions` are modelled
as lists kept in insertion order (Mongo's natural order for these
unindexed collections); `find_one` is `List.find?`, `delete_one` is
`List.eraseP`, `update_one` updates the first matching document.
`datetime` values are UTC epoch seconds (`Nat`); `float` amounts are
modelled as rationals; `str` is `String`.
-/

namespace ExpenseTracker

/-- `class User(BaseModel)` in server.py. -/
structure User where
  id : String
  email : String
  name : String
  picture : String
  created_at : Nat
  deriving Repr, DecidableEq

/-- `class UserSession(BaseModel)` in server.py. -/
structure UserSession where
  id : String
  user_id : String
  session_token : String
  expires_at : Nat
  created_at : Nat
  deriving Repr, DecidableEq

/-- `class Transaction(BaseModel)` in server.py.  `type` is free text
("income" or "expense" by convention, not validated server-side). -/
structure Transaction where
  id : String
  user_id : String
  type : String
  amount : ℚ
  category : String
  description : String
  date : Nat
  created_at : Nat
  deriving Repr, DecidableEq

/-- `class TransactionCreate(BaseModel)`: the client-supplied payload. -/
structure TransactionCreate where
  type : String
  amount : ℚ
  category : String
  description : String
  date : Nat
  deriving Repr, DecidableEq

/-- `class TransactionUpdate(BaseModel)`: all fields optional, `None`
meaning "not supplied". -/
structure TransactionUpdate where
  type : Option String := none
  amount : Option ℚ := none
  category : Option String := none
  description : Option String := none
  date : Option Nat := none
  deriving Repr, DecidableEq

/-- `class DashboardStats(BaseModel)`.  The `Dict[str, float]` is an
insertion-ordered association list, like a Python dict. -/
structure DashboardStats where
  total_income : ℚ
  total_expenses : ℚ
  balance : ℚ
  transactions_count : Nat
  category_breakdown : List (String × ℚ)
  deriving Repr, DecidableEq

/-- The three MongoDB collections used by the handlers. -/
structure ServerState where
  users : List User
  user_sessions : List UserSession
  transactions : List Transaction
  deriving Repr, DecidableEq

/-- Error signals raised via `HTTPException` in the handlers. -/
inductive ApiError where
  | notFound          -- 404
  | unauthenticated   -- 401
  deriving Repr, DecidableEq

/-! ## Token extraction

`request.cookies.get("session_token") or
 request.headers.get("authorization", "").replace("Bearer ", "")`

Python's `str.replace` removes every (non-overlapping, left-to-right)
occurrence of the pattern anywhere in the string; we embed it directly
on the character list, specialised to the pattern `"Bearer "`. -/

/-- The pattern removed from the authorization header. -/
def bearerPat : List Char := "Bearer ".data

/-- Python `s.replace("Bearer ", "")` on the character list: scan left to
right, deleting each occurrence of the 7-character pattern. -/
def removeBearer : List Char → List Char
  | [] => []
  | c :: rest =>
    if bearerPat.isPrefixOf (c :: rest) then
      removeBearer ((c :: rest).drop bearerPat.length)
    else
      c :: removeBearer rest
termination_by l => l.length
decreasing_by
  · simp only [List.length_drop, List.length_cons]
    show (rest.length + 1) - bearerPat.length < rest.length + 1
    have : bearerPat.length = 7 := rfl
    omega
  · simp

/-- `header.replace("Bearer ", "")` at the `String` level. -/
def pyReplaceBearer (s : String) : String :=
  ⟨removeBearer s.data⟩

/-- The token a request resolves to, from the `session_token` cookie
(`none` = cookie absent) or else the authorization header (absent header
modelled as `""`, matching `headers.get("authorization", "")`).  Python's
`or` falls through on the empty string, so an empty cookie value also
falls back to the header. -/
def extractToken (cookie : Option String) (authHeader : String) : String :=
  match cookie with
  | some c => if c = "" then pyReplaceBearer authHeader else c
  | none => pyReplaceBearer authHeader

/-! ## Identity resolution: `get_current_user` -/

/-- `get_current_user` in server.py: resolve the request's token to a
user, or `none` ("unauthenticated").  The Mongo filter
`{"session_token": tok, "expires_at": {"$gt": now}}` matches a session
row whose token equals `tok` and whose expiry is strictly in the
future. -/
def get_current_user (s : ServerState) (now : Nat)
    (cookie : Option String) (authHeader : String) : Option User :=
  let session_token := extractToken cookie authHeader
  if session_token = "" then none
  else
    match s.user_sessions.find?
        (fun ss => ss.session_token == session_token && now < ss.expires_at) with
    | none => none
    | some ss =>
      match s.users.find? (fun u => u.id == ss.user_id) with
      | some u => some u
      | none => none

/-! ## Login exchange: `get_session_data` (success path)

The external provider (httpx call) returned
`{email, name, picture, session_token}`; the handler then looks the user
up by email, lazily creates it, and always inserts one new session with
a 7-day expiry.  Server-generated UUIDs are passed in as parameters
(`freshUserId`, `freshSessionId`); `now` is the call time. -/

/-- The external identity provider's successful response body. -/
structure ProviderData where
  email : String
  name : String
  picture : String
  session_token : String
  deriving Repr, DecidableEq

/-- Seconds in 7 days: `timedelta(days=7)`. -/
def sevenDays : Nat := 7 * 86400

/-- The success path of `get_session_data` in server.py, after the
provider responded 200 with `pd`.  Returns the `{user, session_token}`
body together with the updated state. -/
def get_session_data (s : ServerState) (now : Nat)
    (freshUserId freshSessionId : String) (pd : ProviderData) :
    (User × String) × ServerState :=
  let existing_user := s.users.find? (fun u => u.email == pd.email)
  let user : User :=
    match existing_user with
    | none =>
      { id := freshUserId, email := pd.email, name := pd.name,
        picture := pd.picture, created_at := now }
    | some u => u
  let users' :=
    match existing_user with
    | none => s.users ++ [user]
    | some _ => s.users
  let user_session : UserSession :=
    { id := freshSessionId, user_id := user.id,
      session_token := pd.session_token,
      expires_at := now + sevenDays, created_at := now }
  ((user, pd.session_token),
   { s with users := users',
            user_sessions := s.user_sessions ++ [user_session] })

/-! ## Logout -/

/-- `logout` in server.py: extract the token the same way as
`get_current_user`; if one is present, `delete_one` the session row with
that token (Mongo deletes the first matching document); always return
the success message. -/
def logout (s : ServerState) (cookie : Option String) (authHeader : String) :
    String × ServerState :=
  let session_token := extractToken cookie authHeader
  let s' :=
    if session_token = "" then s
    else { s with user_sessions :=
            s.user_sessions.eraseP (fun ss => ss.session_token == session_token) }
  ("Logged out successfully", s')

/-! ## Transaction CRUD

Each handler first resolves the caller via `get_current_user` and 401s
when that fails; the bodies below are the post-authentication behaviour,
parameterised by the caller's `user_id`. -/

/-- `create_transaction` in server.py: build a `Transaction` owned by the
caller from the payload verbatim, with a fresh id and `created_at = now`,
insert it, and return it. -/
def create_transaction (s : ServerState) (uid : String) (now : Nat)
    (freshId : String) (payload : TransactionCreate) :
    Transaction × ServerState :=
  let transaction : Transaction :=
    { id := freshId, user_id := uid, type := payload.type,
      amount := payload.amount, category := payload.category,
      description := payload.description, date := payload.date,
      created_at := now }
  (transaction, { s with transactions := s.transactions ++ [transaction] })

/-- The Mongo filter `{"id": transaction_id, "user_id": user.id}`. -/
def ownedBy (uid tid : String) (t : Transaction) : Bool :=
  t.id == tid && t.user_id == uid

/-- `get_transaction` in server.py: `find_one` scoped to the caller;
404 when nothing matches. -/
def get_transaction (s : ServerState) (uid tid : String) :
    Except ApiError Transaction :=
  match s.transactions.find? (ownedBy uid tid) with
  | none => .error .notFound
  | some t => .ok t

/-- `{k: v for k, v in transaction_data.dict().items() if v is not None}`
applied through `$set`: overwrite exactly the supplied (non-`None`)
fields of `t`. -/
def applyUpdate (t : Transaction) (upd : TransactionUpdate) : Transaction :=
  { t with
    type := upd.type.getD t.type,
    amount := upd.amount.getD t.amount,
    category := upd.category.getD t.category,
    description := upd.description.getD t.description,
    date := upd.date.getD t.date }

/-- Mongo `update_one`: apply `$set` to the first document matching the
filter, leaving every other document untouched. -/
def updateFirst (p : Transaction → Bool) (f : Transaction → Transaction) :
    List Transaction → List Transaction
  | [] => []
  | t :: ts => if p t then f t :: ts else t :: updateFirst p f ts

/-- `update_transaction` in server.py: 404 if no caller-owned document
has the id; otherwise `$set` the non-`None` payload fields on it (the
`if update_data:` guard skips the write when every field is `None`,
which is the identity update) and re-fetch the document to return it.
The re-fetch cannot miss — `$set` never touches `id` or `user_id` — so
the `none` branch of the second match is unreachable. -/
def update_transaction (s : ServerState) (uid tid : String)
    (upd : TransactionUpdate) : Except ApiError Transaction × ServerState :=
  match s.transactions.find? (ownedBy uid tid) with
  | none => (.error .notFound, s)
  | some _ =>
    let ts' :=
      updateFirst (ownedBy uid tid) (fun t => applyUpdate t upd) s.transactions
    let s' := { s with transactions := ts' }
    match s'.transactions.find? (ownedBy uid tid) with
    | some t' => (.ok t', s')
    | none => (.error .notFound, s')

/-- `delete_transaction` in server.py: Mongo `delete_one` removes the
first caller-owned document with the id; `deleted_count == 0` (no match)
is a 404. -/
def delete_transaction (s : ServerState) (uid tid : String) :
    Except ApiError String × ServerState :=
  if s.transactions.any (ownedBy uid tid) then
    ("Transaction deleted successfully" |> .ok,
     { s with transactions := s.transactions.eraseP (ownedBy uid tid) })
  else
    (.error .notFound, s)

/-! ## List with filters: `get_transactions` -/

/-- The Mongo query built by `get_transactions`: always scoped to the
caller; `if category:` adds an exact match unless the parameter is
absent or the empty string (falsy in Python); each supplied date bound
adds an inclusive `$gte`/`$lte` comparison.  ISO parsing of the bound
strings is abstracted: bounds arrive as epoch seconds. -/
def matchesQuery (uid : String) (category : Option String)
    (start_date end_date : Option Nat) (t : Transaction) : Bool :=
  t.user_id == uid
    && (match category with
        | some c => if c = "" then true else t.category == c
        | none => true)
    && (match start_date with
        | some d => d ≤ t.date
        | none => true)
    && (match end_date with
        | some d => t.date ≤ d
        | none => true)

/-- `.sort("date", -1)`: date descending. -/
def dateDesc (a b : Transaction) : Bool := b.date ≤ a.date

/-- `get_transactions` in server.py: filter, sort by date descending,
`.to_list(1000)`. -/
def get_transactions (s : ServerState) (uid : String)
    (category : Option String) (start_date end_date : Option Nat) :
    List Transaction :=
  (((s.transactions.filter (matchesQuery uid category start_date end_date)).mergeSort
      dateDesc).take 1000)

/-! ## Dashboard stats: `get_dashboard_stats` -/

/-- One iteration of the `category_breakdown` loop, on an
insertion-ordered association list (a Python dict):
`if category not in breakdown: breakdown[category] = 0` then
`breakdown[category] += amount` — insert the key with value 0 when
absent, then add the amount at that key. -/
def bdStep (m : List (String × ℚ)) (t : Transaction) : List (String × ℚ) :=
  let m' := if (m.lookup t.category).isSome then m else m ++ [(t.category, 0)]
  m'.map (fun p => if p.1 = t.category then (p.1, p.2 + t.amount) else p)

/-- `get_dashboard_stats` in server.py: over the caller's transactions
(`.to_list(1000)` caps the read at 1000 documents), sum incomes, sum
expenses, take the difference, count rows, and fold the category
breakdown in list order. -/
def get_dashboard_stats (s : ServerState) (uid : String) : DashboardStats :=
  let transactions := (s.transactions.filter (fun t => t.user_id == uid)).take 1000
  let total_income :=
    ((transactions.filter (fun t => t.type == "income")).map (·.amount)).sum
  let total_expenses :=
    ((transactions.filter (fun t => t.type == "expense")).map (·.amount)).sum
  { total_income := total_income,
    total_expenses := total_expenses,
    balance := total_income - total_expenses,
    transactions_count := transactions.length,
    category_breakdown := transactions.foldl bdStep [] }

/-! ## Monthly analytics: `get_monthly_analytics`

`strftime("%Y-%m")` on a UTC datetime yields the calendar year and month;
we compute them from the epoch-second timestamp with the standard
civil-from-days conversion (Gregorian calendar). -/

/-- Convert a day count since 1970-01-01 to (year, month, day),
proleptic Gregorian (valid for all days ≥ 0). -/
def civilFromDays (days : Nat) : Nat × Nat × Nat :=
  let z := days + 719468
  let era := z / 146097
  let doe := z % 146097
  let yoe := (doe - doe / 1460 + doe / 36524 - doe / 146096) / 365
  let y := yoe + era * 400
  let doy := doe - (365 * yoe + yoe / 4 - yoe / 100)
  let mp := (5 * doy + 2) / 153
  let d := doy - (153 * mp + 2) / 5 + 1
  let m := if mp < 10 then mp + 3 else mp - 9
  (if m ≤ 2 then y + 1 else y, m, d)

/-- The `strftime("%Y-%m")` bucket key of a timestamp: calendar
(year, month) in UTC. -/
def monthKey (secs : Nat) : Nat × Nat :=
  let c := civilFromDays (secs / 86400)
  (c.1, c.2.1)

/-- Per-month accumulator: `{"income": 0, "expenses": 0}`. -/
structure MonthData where
  income : ℚ
  expenses : ℚ
  deriving Repr, DecidableEq

/-- The per-transaction accumulation of the grouping loop: the amount is
added to the bucket's `income` field when `type == "income"` and to its
`expenses` field otherwise (any non-"income" type counts as expense). -/
def addTxn (t : Transaction) (d : MonthData) : MonthData :=
  if t.type == "income" then { d with income := d.income + t.amount }
  else { d with expenses := d.expenses + t.amount }

/-- One iteration of the grouping loop in `get_monthly_analytics`:
insert the month bucket (zero income/expenses) if absent, then apply
`addTxn` at that bucket. -/
def monthStep (m : List ((Nat × Nat) × MonthData)) (t : Transaction) :
    List ((Nat × Nat) × MonthData) :=
  let m' : List ((Nat × Nat) × MonthData) :=
    if (m.lookup (monthKey t.date)).isSome then m
    else m ++ [(monthKey t.date, { income := 0, expenses := 0 })]
  m'.map (fun p => if p.1 = monthKey t.date then (p.1, addTxn t p.2) else p)

/-- The Mongo window filter of `get_monthly_analytics`:
`start_date <= date <= end_date` with `start_date = now - 365 days`. -/
def inWindow (now : Nat) (t : Transaction) : Bool :=
  now - 365 * 86400 ≤ t.date && t.date ≤ now

/-- `get_monthly_analytics` in server.py: the caller's transactions with
`date` in the trailing 365 days (`.to_list(1000)` cap), grouped by
`strftime("%Y-%m")` of `date`, accumulating separate income and expense
sums per bucket. -/
def get_monthly_analytics (s : ServerState) (uid : String) (now : Nat) :
    List ((Nat × Nat) × MonthData) :=
  let transactions :=
    (s.transactions.filter (fun t => t.user_id == uid && inWindow now t)).take 1000
  transactions.foldl monthStep []

/-! ## Concrete fixtures for witnesses and scenarios -/

/-- A transaction owned by user `"B"`. -/
def txB : Transaction :=
  { id := "t1", user_id := "B", type := "expense", amount := 5,
    category := "Food", description := "lunch", date := 100, created_at := 50 }

/-- A store holding only `txB`. -/
def stateB : ServerState :=
  { users := [], user_sessions := [], transactions := [txB] }

/-- A user for authentication fixtures. -/
def uA : User :=
  { id := "uA", email := "a@x.com", name := "A", picture := "p", created_at := 0 }

/-- A live session for `uA` with token `"tok1"`, expiring at 1000. -/
def sessA : UserSession :=
  { id := "s1", user_id := "uA", session_token := "tok1",
    expires_at := 1000, created_at := 0 }

/-- A store holding `uA` and `sessA`. -/
def stateAuth : ServerState :=
  { users := [uA], user_sessions := [sessA], transactions := [] }

/-- A transaction owned by user `"A"`, for update/delete witnesses. -/
def txA : Transaction :=
  { id := "ta", user_id := "A", type := "expense", amount := 7,
    category := "Food", description := "d", date := 10, created_at := 1 }

/-- A store holding only `txA`. -/
def stateA : ServerState :=
  { users := [], user_sessions := [], transactions := [txA] }

/-! ## The spec's three-transaction scenario for user `"U"` -/

/-- Scenario row 1: (expense, 50, "Food"). -/
def txFood50 : Transaction :=
  { id := "u1", user_id := "U", type := "expense", amount := 50,
    category := "Food", description := "grocery", date := 100, created_at := 1 }

/-- Scenario row 2: (income, 2000, "Salary"). -/
def txSalary2000 : Transaction :=
  { id := "u2", user_id := "U", type := "income", amount := 2000,
    category := "Salary", description := "pay", date := 200, created_at := 2 }

/-- Scenario row 3: (expense, 20, "Food"). -/
def txFood20 : Transaction :=
  { id := "u3", user_id := "U", type := "expense", amount := 20,
    category := "Food", description := "snack", date := 300, created_at := 3 }

/-- The store after inserting the three scenario rows for `"U"`. -/
def stateU : ServerState :=
  { users := [], user_sessions := [],
    transactions := [txFood50, txSalary2000, txFood20] }

/-- The claim's per-category total: sum of amounts, both types. -/
def sumCat (ts : List Transaction) (c : String) : ℚ :=
  ((ts.filter fun t => t.category == c).map (·.amount)).sum

/-- A caller-owned template row for the cap counterexample. -/
def bigTx : Transaction :=
  { id := "", user_id := "U", type := "expense", amount := 1,
    category := "Food", description := "", date := 0, created_at := 0 }

/-- A store with 1001 distinct transactions, all owned by `"U"`. -/
def bigState : ServerState :=
  { users := [], user_sessions := [],
    transactions := (List.range 1001).map
      (fun i => { bigTx with id := toString i }) }

/-- Per-month income total: amounts with `type = "income"`. -/
def sumIncMonth (ts : List Transaction) (k : Nat × Nat) : ℚ :=
  ((ts.filter fun t => monthKey t.date == k && t.type == "income").map
    (·.amount)).sum

/-- Per-month total of everything the loop's else-branch accumulates:
amounts whose `type` differs from `"income"`. -/
def sumNonIncMonth (ts : List Transaction) (k : Nat × Nat) : ℚ :=
  ((ts.filter fun t => monthKey t.date == k && !(t.type == "income")).map
    (·.amount)).sum

/-- Per-month expense total: amounts with `type = "expense"`. -/
def sumExpMonth (ts : List Transaction) (k : Nat × Nat) : ℚ :=
  ((ts.filter fun t => monthKey t.date == k && t.type == "expense").map
    (·.amount)).sum

/-! ## Claims -/

/-- C1.  Cross-user isolation: when every transaction carrying the
requested id is owned by someone other than the caller `A` (which covers
both "owned by another user `B`" and "no such id at all"), single-read,
update and delete all signal not-found and leave the store — in
particular B's transaction — unchanged; moreover the observable results
coincide with those produced on any store in which no transaction with
that id exists at all, so an ownership mismatch is indistinguishable
from true absence. -/
theorem claim_C1_cross_user_isolation (s : ServerState) (A tid : String)
    (upd : TransactionUpdate)
    (h : ∀ t ∈ s.transactions, t.id = tid → t.user_id ≠ A) :
    get_transaction s A tid = .error .notFound ∧
    update_transaction s A tid upd = (.error .notFound, s) ∧
    delete_transaction s A tid = (.error .notFound, s) ∧
    ∀ s₂ : ServerState, (∀ t ∈ s₂.transactions, t.id ≠ tid) →
      get_transaction s₂ A tid = get_transaction s A tid ∧
      (update_transaction s₂ A tid upd).1 = (update_transaction s A tid upd).1 ∧
      (delete_transaction s₂ A tid).1 = (delete_transaction s A tid).1 := by
  have hnot : ∀ t ∈ s.transactions, ¬ (ownedBy A tid t = true) := by
    intro t ht
    simp only [ownedBy, Bool.and_eq_true, beq_iff_eq, not_and]
    exact fun h1 => h t ht h1
  have hfind : s.transactions.find? (ownedBy A tid) = none :=
    List.find?_eq_none.mpr hnot
  have hany : s.transactions.any (ownedBy A tid) = false :=
    List.any_eq_false.mpr hnot
  refine ⟨?_, ?_, ?_, ?_⟩
  · simp [get_transaction, hfind]
  · simp [update_transaction, hfind]
  · simp [delete_transaction, hany]
  · intro s₂ h₂
    have hnot₂ : ∀ t ∈ s₂.transactions, ¬ (ownedBy A tid t = true) := by
      intro t ht
      simp only [ownedBy, Bool.and_eq_true, beq_iff_eq, not_and]
      exact fun h1 _ => h₂ t ht h1
    have hfind₂ : s₂.transactions.find? (ownedBy A tid) = none :=
      List.find?_eq_none.mpr hnot₂
    have hany₂ : s₂.transactions.any (ownedBy A tid) = false :=
      List.any_eq_false.mpr hnot₂
    refine ⟨?_, ?_, ?_⟩
    · simp [get_transaction, hfind, hfind₂]
    · simp [update_transaction, hfind, hfind₂]
    · simp [delete_transaction, hany, hany₂]

/-- Witness for C1: caller `"A"` against the store holding only `txB`
(owned by `"B"`, id `"t1"`). -/
theorem claim_C1_witness :
    (∀ t ∈ stateB.transactions, t.id = "t1" → t.user_id ≠ "A") ∧
    get_transaction stateB "A" "t1" = .error .notFound :=
  ⟨by decide,
   (claim_C1_cross_user_isolation stateB "A" "t1" {} (by decide)).1⟩

/-- C2.  Identity resolution is the read-only total function
`get_current_user` (it returns an `Option User`, never an error): under
referential integrity of sessions (every session's `user_id` names a
stored user — the spec's data-model invariant), it yields `none`
(unauthenticated) exactly when the request carries no token or no
session row has that token with `expires_at` strictly greater than
`now`; and it yields a user only when such a live session row exists. -/
theorem claim_C2_identity_resolution (s : ServerState) (now : Nat)
    (cookie : Option String) (authHeader : String)
    (href : ∀ ss ∈ s.user_sessions, ∃ u ∈ s.users, u.id = ss.user_id) :
    (get_current_user s now cookie authHeader = none ↔
      extractToken cookie authHeader = "" ∨
      ∀ ss ∈ s.user_sessions,
        ¬(ss.session_token = extractToken cookie authHeader ∧
          now < ss.expires_at)) ∧
    ∀ u, get_current_user s now cookie authHeader = some u →
      ∃ ss ∈ s.user_sessions,
        ss.session_token = extractToken cookie authHeader ∧
        now < ss.expires_at := by
  by_cases h0 : extractToken cookie authHeader = ""
  · constructor
    · simp [get_current_user, h0]
    · intro u hu
      simp [get_current_user, h0] at hu
  · cases hfind : s.user_sessions.find?
        (fun ss => ss.session_token == extractToken cookie authHeader
          && now < ss.expires_at) with
    | none =>
      have hnone : get_current_user s now cookie authHeader = none := by
        simp [get_current_user, h0, hfind]
      constructor
      · rw [hnone]
        refine iff_of_true rfl (Or.inr ?_)
        intro ss hss
        have := List.find?_eq_none.mp hfind ss hss
        simp only [Bool.and_eq_true, beq_iff_eq, decide_eq_true_eq, not_and] at this
        exact fun hc => this hc.1 hc.2
      · intro u hu
        rw [hnone] at hu
        exact absurd hu (by simp)
    | some ss =>
      have hmem : ss ∈ s.user_sessions := List.mem_of_find?_eq_some hfind
      have hpred := List.find?_some hfind
      simp only [Bool.and_eq_true, beq_iff_eq, decide_eq_true_eq] at hpred
      obtain ⟨hss_tok, hss_exp⟩ := hpred
      obtain ⟨u, hu_mem, hu_id⟩ := href ss hmem
      have husr : (s.users.find? (fun v => v.id == ss.user_id)).isSome := by
        rw [List.find?_isSome]
        exact ⟨u, hu_mem, by simp [hu_id]⟩
      cases husr' : s.users.find? (fun v => v.id == ss.user_id) with
      | none => rw [husr'] at husr; simp at husr
      | some v =>
        have hsome : get_current_user s now cookie authHeader = some v := by
          simp [get_current_user, h0, hfind, husr']
        constructor
        · rw [hsome]
          refine iff_of_false (by simp) ?_
          rintro (hc | hc)
          · exact h0 hc
          · exact hc ss hmem ⟨hss_tok, hss_exp⟩
        · intro w _
          exact ⟨ss, hmem, hss_tok, hss_exp⟩

/-- Witness for C2: the fixture store with a live session for token
`"tok1"` at time 5. -/
theorem claim_C2_witness :
    (∀ ss ∈ stateAuth.user_sessions, ∃ u ∈ stateAuth.users, u.id = ss.user_id) ∧
    (get_current_user stateAuth 5 (some "tok1") "" = none ↔
      extractToken (some "tok1") "" = "" ∨
      ∀ ss ∈ stateAuth.user_sessions,
        ¬(ss.session_token = extractToken (some "tok1") "" ∧ 5 < ss.expires_at)) :=
  ⟨by decide,
   (claim_C2_identity_resolution stateAuth 5 (some "tok1") "" (by decide)).1⟩

/-- `find?` returns the unique element satisfying the predicate. -/
lemma find?_eq_some_of_unique {α : Type} {p : α → Bool} {t : α} {l : List α}
    (hmem : t ∈ l) (hpt : p t = true) (huniq : ∀ x ∈ l, p x → x = t) :
    l.find? p = some t := by
  induction l with
  | nil => cases hmem
  | cons a l ih =>
    by_cases hpa : p a
    · have ha : a = t := huniq a (List.mem_cons_self a l) hpa
      subst ha
      exact List.find?_cons_of_pos _ hpa
    · rw [List.find?_cons_of_neg _ hpa]
      rcases List.mem_cons.mp hmem with h | h
      · subst h; exact absurd hpt hpa
      · exact ih h fun x hx hpx => huniq x (List.mem_cons_of_mem _ hx) hpx

/-- `updateFirst` on a list whose first match is at the head of the
second part rewrites exactly that element. -/
lemma updateFirst_append {p : Transaction → Bool} {f : Transaction → Transaction}
    (l1 l2 : List Transaction) (t : Transaction)
    (h1 : ∀ x ∈ l1, ¬ p x) (hpt : p t = true) :
    updateFirst p f (l1 ++ t :: l2) = l1 ++ f t :: l2 := by
  induction l1 with
  | nil => simp [updateFirst, hpt]
  | cons a l ih =>
    have hpa : ¬ p a := h1 a (List.mem_cons_self a l)
    simp only [List.cons_append, updateFirst, if_neg hpa, List.cons.injEq, true_and]
    exact ih fun x hx => h1 x (List.mem_cons_of_mem _ hx)

/-- `applyUpdate` never touches `id` or `user_id`, so the updated
document still matches the caller-scoped filter. -/
lemma ownedBy_applyUpdate (uid tid : String) (t : Transaction)
    (upd : TransactionUpdate) (h : ownedBy uid tid t = true) :
    ownedBy uid tid (applyUpdate t upd) = true := by
  simpa [ownedBy, applyUpdate] using h

/-- Core of C7: for the unique caller-owned transaction `t` with the
requested id, `update_transaction` returns `applyUpdate t upd` and
replaces exactly `t` by `applyUpdate t upd` in the store. -/
lemma update_transaction_spec (s : ServerState) (uid tid : String)
    (t : Transaction)
    (hmem : t ∈ s.transactions) (hid : t.id = tid) (huid : t.user_id = uid)
    (huniq : ∀ x ∈ s.transactions, x.id = tid → x = t)
    (upd : TransactionUpdate) :
    (update_transaction s uid tid upd).1 = .ok (applyUpdate t upd) ∧
    ∃ l1 l2, s.transactions = l1 ++ t :: l2 ∧
      (update_transaction s uid tid upd).2.transactions
        = l1 ++ applyUpdate t upd :: l2 := by
  have hpt : ownedBy uid tid t = true := by simp [ownedBy, hid, huid]
  have huniq' : ∀ x ∈ s.transactions, ownedBy uid tid x → x = t := by
    intro x hx hpx
    simp only [ownedBy, Bool.and_eq_true, beq_iff_eq] at hpx
    exact huniq x hx hpx.1
  have hfind : s.transactions.find? (ownedBy uid tid) = some t :=
    find?_eq_some_of_unique hmem hpt huniq'
  obtain ⟨-, l1, l2, heq, hbefore⟩ := List.find?_eq_some.mp hfind
  have hbefore' : ∀ x ∈ l1, ¬ ownedBy uid tid x := by
    intro x hx
    simpa using hbefore x hx
  have hupd : updateFirst (ownedBy uid tid) (fun x => applyUpdate x upd)
      s.transactions = l1 ++ applyUpdate t upd :: l2 := by
    rw [heq]
    exact updateFirst_append l1 l2 t hbefore' hpt
  have hrefetch : (l1 ++ applyUpdate t upd :: l2).find? (ownedBy uid tid)
      = some (applyUpdate t upd) := by
    rw [List.find?_append, List.find?_eq_none.mpr hbefore',
      List.find?_cons_of_pos _ (ownedBy_applyUpdate uid tid t upd hpt)]
    rfl
  constructor
  · simp [update_transaction, hfind, hupd, hrefetch]
  · exact ⟨l1, l2, heq, by simp [update_transaction, hfind, hupd, hrefetch]⟩

/-- C6.  Create/read round trip: creating a transaction from any payload
(with a genuinely fresh server-assigned id) and reading it back by the
returned id yields exactly the created record, whose `type`, `amount`,
`category`, `description` and `date` equal the payload's values, with
only `id` and `created_at` server-assigned. -/
theorem claim_C6_create_read_roundtrip (s : ServerState) (uid : String)
    (now : Nat) (freshId : String) (payload : TransactionCreate)
    (hfresh : ∀ t ∈ s.transactions, t.id ≠ freshId) :
    get_transaction (create_transaction s uid now freshId payload).2 uid freshId
      = .ok (create_transaction s uid now freshId payload).1 ∧
    (create_transaction s uid now freshId payload).1.type = payload.type ∧
    (create_transaction s uid now freshId payload).1.amount = payload.amount ∧
    (create_transaction s uid now freshId payload).1.category = payload.category ∧
    (create_transaction s uid now freshId payload).1.description
      = payload.description ∧
    (create_transaction s uid now freshId payload).1.date = payload.date ∧
    (create_transaction s uid now freshId payload).1.id = freshId ∧
    (create_transaction s uid now freshId payload).1.user_id = uid ∧
    (create_transaction s uid now freshId payload).1.created_at = now := by
  have hnone : s.transactions.find? (ownedBy uid freshId) = none := by
    rw [List.find?_eq_none]
    intro t ht
    simp only [ownedBy, Bool.and_eq_true, beq_iff_eq, not_and]
    exact fun h1 => absurd h1 (hfresh t ht)
  refine ⟨?_, rfl, rfl, rfl, rfl, rfl, rfl, rfl, rfl⟩
  simp [get_transaction, create_transaction, List.find?_append, hnone, ownedBy]

/-- Witness for C6: create into the fixture store `stateB`. -/
theorem claim_C6_witness :
    (∀ t ∈ stateB.transactions, t.id ≠ "fresh") ∧
    get_transaction
        (create_transaction stateB "A" 77 "fresh"
          { type := "income", amount := 3, category := "Salary",
            description := "pay", date := 12 }).2 "A" "fresh"
      = .ok (create_transaction stateB "A" 77 "fresh"
          { type := "income", amount := 3, category := "Salary",
            description := "pay", date := 12 }).1 :=
  ⟨by decide,
   (claim_C6_create_read_roundtrip stateB "A" 77 "fresh"
      { type := "income", amount := 3, category := "Salary",
        description := "pay", date := 12 } (by decide)).1⟩

/-- C7.  Update is a partial merge: on the unique caller-owned
transaction with the requested id, the returned record is the prior
record with exactly the non-`none` payload fields overwritten (each
`none` field retains its prior value, each `some v` field becomes `v`),
the store replaces exactly that record, and in particular an amount-only
update leaves `category`, `description`, `type` and `date` unchanged. -/
theorem claim_C7_partial_update (s : ServerState) (uid tid : String)
    (upd : TransactionUpdate) (t : Transaction)
    (hmem : t ∈ s.transactions) (hid : t.id = tid) (huid : t.user_id = uid)
    (huniq : ∀ x ∈ s.transactions, x.id = tid → x = t) :
    (update_transaction s uid tid upd).1 = .ok (applyUpdate t upd) ∧
    (∃ l1 l2, s.transactions = l1 ++ t :: l2 ∧
      (update_transaction s uid tid upd).2.transactions
        = l1 ++ applyUpdate t upd :: l2) ∧
    (upd.type = none → (applyUpdate t upd).type = t.type) ∧
    (upd.amount = none → (applyUpdate t upd).amount = t.amount) ∧
    (upd.category = none → (applyUpdate t upd).category = t.category) ∧
    (upd.description = none → (applyUpdate t upd).description = t.description) ∧
    (upd.date = none → (applyUpdate t upd).date = t.date) ∧
    (∀ v, upd.type = some v → (applyUpdate t upd).type = v) ∧
    (∀ v, upd.amount = some v → (applyUpdate t upd).amount = v) ∧
    (∀ v, upd.category = some v → (applyUpdate t upd).category = v) ∧
    (∀ v, upd.description = some v → (applyUpdate t upd).description = v) ∧
    (∀ v, upd.date = some v → (applyUpdate t upd).date = v) ∧
    ∀ a : ℚ, (update_transaction s uid tid
        { type := none, amount := some a, category := none,
          description := none, date := none }).1
      = .ok { t with amount := a } := by
  obtain ⟨h1, h2⟩ := update_transaction_spec s uid tid t hmem hid huid huniq upd
  refine ⟨h1, h2, ?_, ?_, ?_, ?_, ?_, ?_, ?_, ?_, ?_, ?_, ?_⟩
  · intro h; simp [applyUpdate, h]
  · intro h; simp [applyUpdate, h]
  · intro h; simp [applyUpdate, h]
  · intro h; simp [applyUpdate, h]
  · intro h; simp [applyUpdate, h]
  · intro v h; simp [applyUpdate, h]
  · intro v h; simp [applyUpdate, h]
  · intro v h; simp [applyUpdate, h]
  · intro v h; simp [applyUpdate, h]
  · intro v h; simp [applyUpdate, h]
  · intro a
    have := (update_transaction_spec s uid tid t hmem hid huid huniq
      { type := none, amount := some a, category := none,
        description := none, date := none }).1
    rw [this]
    simp [applyUpdate]

/-- Witness for C7: amount-only update of `txA` in `stateA`. -/
theorem claim_C7_witness :
    (txA ∈ stateA.transactions ∧ txA.id = "ta" ∧ txA.user_id = "A" ∧
      ∀ x ∈ stateA.transactions, x.id = "ta" → x = txA) ∧
    ∀ a : ℚ, (update_transaction stateA "A" "ta"
        { type := none, amount := some a, category := none,
          description := none, date := none }).1
      = .ok { txA with amount := a } :=
  ⟨⟨by decide, rfl, rfl, by decide⟩,
   (claim_C7_partial_update stateA "A" "ta" {} txA (by decide) rfl rfl
      (by decide)).2.2.2.2.2.2.2.2.2.2.2.2⟩

/-- C8.  Logout is idempotent and never errors: it always returns the
success message; with no token, or with a token matching no session row,
the store is untouched; and when the request carries a token matched by
exactly one session row, exactly that row is deleted (the store
decomposes around it and every other row survives in place), after which
a second logout with the same credentials changes nothing. -/
theorem claim_C8_logout_idempotent (s : ServerState) (cookie : Option String)
    (authHeader : String) :
    (logout s cookie authHeader).1 = "Logged out successfully" ∧
    (extractToken cookie authHeader = "" →
      (logout s cookie authHeader).2 = s) ∧
    ((∀ ss ∈ s.user_sessions,
        ss.session_token ≠ extractToken cookie authHeader) →
      (logout s cookie authHeader).2 = s) ∧
    (extractToken cookie authHeader ≠ "" →
      s.user_sessions.countP
        (fun x => x.session_token == extractToken cookie authHeader) = 1 →
      ∃ ss l1 l2, s.user_sessions = l1 ++ ss :: l2 ∧
        ss.session_token = extractToken cookie authHeader ∧
        (logout s cookie authHeader).2.user_sessions = l1 ++ l2 ∧
        (∀ x ∈ l1 ++ l2, x.session_token ≠ extractToken cookie authHeader) ∧
        (logout (logout s cookie authHeader).2 cookie authHeader).2
          = (logout s cookie authHeader).2) := by
  set tok := extractToken cookie authHeader with htokdef
  refine ⟨rfl, ?_, ?_, ?_⟩
  · intro h; simp [logout, ← htokdef, h]
  · intro h
    by_cases h0 : tok = ""
    · simp [logout, ← htokdef, h0]
    · have : s.user_sessions.eraseP (fun x => x.session_token == tok)
          = s.user_sessions :=
        List.eraseP_of_forall_not (by intro a ha; simpa using h a ha)
      simp [logout, ← htokdef, h0, this]
  · intro h0 hcount
    have hex : ∃ x ∈ s.user_sessions, (x.session_token == tok) = true := by
      by_contra hb
      push_neg at hb
      have : s.user_sessions.countP (fun x => x.session_token == tok) = 0 :=
        List.countP_eq_zero.mpr (by intro a ha; simp [hb a ha])
      omega
    have hfs : (s.user_sessions.find? (fun x => x.session_token == tok)).isSome := by
      rw [List.find?_isSome]
      obtain ⟨x, hx, hpx⟩ := hex
      exact ⟨x, hx, hpx⟩
    obtain ⟨ss, hfind⟩ := Option.isSome_iff_exists.mp hfs
    obtain ⟨hp', l1, l2, heq, hbefore⟩ := List.find?_eq_some.mp hfind
    have hl1 : ∀ x ∈ l1, ¬ ((x.session_token == tok) = true) := by
      intro x hx; simpa using hbefore x hx
    have hl2 : ∀ x ∈ l2, ¬ ((x.session_token == tok) = true) := by
      rw [heq] at hcount
      rw [List.countP_append, List.countP_cons, hp'] at hcount
      have hc1 : l1.countP (fun x => x.session_token == tok) = 0 :=
        List.countP_eq_zero.mpr hl1
      simp only [if_true] at hcount
      have hc2 : l2.countP (fun x => x.session_token == tok) = 0 := by omega
      exact List.countP_eq_zero.mp hc2
    have herase : s.user_sessions.eraseP (fun x => x.session_token == tok)
        = l1 ++ l2 := by
      rw [heq, List.eraseP_append]
      have hany : l1.any (fun x => x.session_token == tok) = false :=
        List.any_eq_false.mpr hl1
      simp [hany, List.eraseP_cons, hp']
    have hstate : (logout s cookie authHeader).2
        = { s with user_sessions := l1 ++ l2 } := by
      simp [logout, ← htokdef, h0, herase]
    have hnomatch : ∀ x ∈ l1 ++ l2, x.session_token ≠ tok := by
      intro x hx
      rcases List.mem_append.mp hx with h | h
      · simpa using hl1 x h
      · simpa using hl2 x h
    refine ⟨ss, l1, l2, heq, by simpa using hp', by rw [hstate], hnomatch, ?_⟩
    rw [hstate]
    have : (l1 ++ l2).eraseP (fun x => x.session_token == tok) = l1 ++ l2 :=
      List.eraseP_of_forall_not (by intro a ha; simp [hnomatch a ha])
    simp [logout, ← htokdef, h0, this]

/-- Witness for C8: logging out the fixture session `"tok1"`. -/
theorem claim_C8_witness :
    (extractToken (some "tok1") "" ≠ "" ∧
      stateAuth.user_sessions.countP
        (fun x => x.session_token == extractToken (some "tok1") "") = 1) ∧
    (logout stateAuth (some "tok1") "").1 = "Logged out successfully" :=
  ⟨⟨by decide, by decide⟩,
   (claim_C8_logout_idempotent stateAuth (some "tok1") "").1⟩

/-- C9.  Login exchange (success path): the user is looked up by email
as the sole natural key — when absent, a new user with the fresh stable
id and `created_at = now` is created; when present, the stored record is
reused and the `users` collection is left completely unchanged, so
`name`/`picture` are not refreshed — and in both cases exactly one new
session row bound to the provider's `session_token` with
`expires_at = now + 7 days` is appended. -/
theorem claim_C9_login_exchange (s : ServerState) (now : Nat)
    (freshUserId freshSessionId : String) (pd : ProviderData) :
    ((∀ u ∈ s.users, u.email ≠ pd.email) →
      get_session_data s now freshUserId freshSessionId pd =
        (({ id := freshUserId, email := pd.email, name := pd.name,
            picture := pd.picture, created_at := now }, pd.session_token),
         { users := s.users ++
             [{ id := freshUserId, email := pd.email, name := pd.name,
                picture := pd.picture, created_at := now }],
           user_sessions := s.user_sessions ++
             [{ id := freshSessionId, user_id := freshUserId,
                session_token := pd.session_token,
                expires_at := now + sevenDays, created_at := now }],
           transactions := s.transactions })) ∧
    ∀ u, s.users.find? (fun v => v.email == pd.email) = some u →
      get_session_data s now freshUserId freshSessionId pd =
        ((u, pd.session_token),
         { users := s.users,
           user_sessions := s.user_sessions ++
             [{ id := freshSessionId, user_id := u.id,
                session_token := pd.session_token,
                expires_at := now + sevenDays, created_at := now }],
           transactions := s.transactions }) := by
  constructor
  · intro h
    have hnone : s.users.find? (fun v => v.email == pd.email) = none := by
      rw [List.find?_eq_none]
      intro u hu
      simp [h u hu]
    simp [get_session_data, hnone]
  · intro u hfind
    simp [get_session_data, hfind]

/-- Witness for C9: a first login with a fresh email against the
`stateAuth` fixture. -/
theorem claim_C9_witness :
    (∀ u ∈ stateAuth.users, u.email ≠ "new@x.com") ∧
    get_session_data stateAuth 50 "fid" "sid"
        { email := "new@x.com", name := "N", picture := "P",
          session_token := "stok" } =
      (({ id := "fid", email := "new@x.com", name := "N", picture := "P",
          created_at := 50 }, "stok"),
       { users := stateAuth.users ++
           [{ id := "fid", email := "new@x.com", name := "N",
              picture := "P", created_at := 50 }],
         user_sessions := stateAuth.user_sessions ++
           [{ id := "sid", user_id := "fid", session_token := "stok",
              expires_at := 50 + sevenDays, created_at := 50 }],
         transactions := stateAuth.transactions }) :=
  ⟨by decide,
   (claim_C9_login_exchange stateAuth 50 "fid" "sid"
      { email := "new@x.com", name := "N", picture := "P",
        session_token := "stok" }).1 (by decide)⟩

/-- A string not containing `"Bearer "` is left untouched by the
replacement. -/
lemma removeBearer_of_no_marker (l : List Char) (h : ¬ bearerPat <:+: l) :
    removeBearer l = l := by
  induction l using removeBearer.induct with
  | case1 => rw [removeBearer]
  | case2 c rest hpre =>
    exact absurd (List.isPrefixOf_iff_prefix.mp hpre).isInfix h
  | case3 c rest hpre ih =>
    rw [removeBearer, if_neg (by simpa using hpre)]
    exact congrArg (c :: ·) (ih fun hinf => h (List.infix_cons hinf))

/-- C10.  Token-extraction leniency: with no `session_token` cookie, the
token handed to identity resolution and logout is the authorization
header with every occurrence of the substring `"Bearer "` removed by a
single left-to-right pass — so a header carrying a raw token with no
`"Bearer "` substring is accepted verbatim, and the removal applies
anywhere in the header (mid-string and repeated occurrences included),
not only as a leading prefix.  An empty cookie value falls back to the
header the same way. -/
theorem claim_C10_token_leniency (h : String) :
    extractToken none h = pyReplaceBearer h ∧
    (¬ bearerPat <:+: h.data → extractToken none h = h) ∧
    extractToken none "xxBearer tok" = "xxtok" ∧
    extractToken none "Bearer Bearer tok" = "tok" ∧
    extractToken (some "") "Bearer tok" = "tok" := by
  refine ⟨rfl, ?_, ?_, ?_, ?_⟩
  · intro hinf
    show pyReplaceBearer h = h
    unfold pyReplaceBearer
    rw [removeBearer_of_no_marker h.data hinf]
  · simp [extractToken, pyReplaceBearer, removeBearer, bearerPat,
      List.isPrefixOf]
  · simp [extractToken, pyReplaceBearer, removeBearer, bearerPat,
      List.isPrefixOf]
  · simp [extractToken, pyReplaceBearer, removeBearer, bearerPat,
      List.isPrefixOf]

/-- Witness for C10: a raw token without the `"Bearer "` marker passes
through unchanged. -/
theorem claim_C10_witness :
    (¬ bearerPat <:+: ("rawtok123" : String).data) ∧
    extractToken none "rawtok123" = "rawtok123" :=
  ⟨by decide, (claim_C10_token_leniency "rawtok123").2.1 (by decide)⟩

/-- `dateDesc` is transitive. -/
lemma dateDesc_trans (a b c : Transaction) :
    dateDesc a b → dateDesc b c → dateDesc a c := by
  simp only [dateDesc, decide_eq_true_eq]
  omega

/-- `dateDesc` is total. -/
lemma dateDesc_total (a b : Transaction) : dateDesc a b || dateDesc b a := by
  simp only [dateDesc, Bool.or_eq_true, decide_eq_true_eq]
  omega

/-- C5.  The list operation returns exactly the caller's transactions
satisfying every supplied filter (as long as they fit in the 1000-row
read cap): the result is a permutation of the filtered store with the
same membership, it is ordered by transaction date descending, it never
exceeds 1000 rows, the query semantics are caller-scoping plus
exact-match category plus inclusive date bounds, independently
combinable — and on the scenario store, filtering by category `"Food"`
returns exactly the two expense rows in date-descending order. -/
theorem claim_C5_list_filters (s : ServerState) (uid : String)
    (category : Option String) (sd ed : Option Nat)
    (hle : (s.transactions.filter (matchesQuery uid category sd ed)).length
      ≤ 1000) :
    (get_transactions s uid category sd ed).Perm
      (s.transactions.filter (matchesQuery uid category sd ed)) ∧
    (∀ t, t ∈ get_transactions s uid category sd ed ↔
      t ∈ s.transactions ∧ matchesQuery uid category sd ed t = true) ∧
    (get_transactions s uid category sd ed).Pairwise
      (fun a b => b.date ≤ a.date) ∧
    (get_transactions s uid category sd ed).length ≤ 1000 ∧
    (∀ t c lo hi, c ≠ "" →
      (matchesQuery uid (some c) (some lo) (some hi) t = true ↔
        t.user_id = uid ∧ t.category = c ∧ lo ≤ t.date ∧ t.date ≤ hi)) ∧
    (∀ t, matchesQuery uid none none none t = true ↔ t.user_id = uid) ∧
    get_transactions stateU "U" (some "Food") none none
      = [txFood20, txFood50] := by
  have hlen : ((s.transactions.filter
      (matchesQuery uid category sd ed)).mergeSort dateDesc).length ≤ 1000 := by
    rw [List.length_mergeSort]
    exact hle
  have htake : get_transactions s uid category sd ed
      = (s.transactions.filter (matchesQuery uid category sd ed)).mergeSort
        dateDesc := by
    unfold get_transactions
    exact List.take_of_length_le hlen
  refine ⟨?_, ?_, ?_, ?_, ?_, ?_, ?_⟩
  · rw [htake]
    exact List.mergeSort_perm _ _
  · intro t
    rw [htake]
    simp [List.mem_mergeSort, List.mem_filter]
  · rw [htake]
    have := List.sorted_mergeSort dateDesc_trans dateDesc_total
      (s.transactions.filter (matchesQuery uid category sd ed))
    exact this.imp (by intro a b hab; simpa [dateDesc] using hab)
  · unfold get_transactions
    exact List.length_take_le _ _
  · intro t c lo hi hc
    simp [matchesQuery, hc, and_assoc]
  · intro t
    simp [matchesQuery]
  · show ((stateU.transactions.filter
        (matchesQuery "U" (some "Food") none none)).mergeSort dateDesc).take 1000
      = [txFood20, txFood50]
    have hfilter : stateU.transactions.filter
        (matchesQuery "U" (some "Food") none none) = [txFood50, txFood20] := by
      decide
    rw [hfilter]
    simp [List.mergeSort, dateDesc, txFood50, txFood20, List.merge]

/-- Witness for C5: the scenario store satisfies the cap hypothesis and
the Food filter returns the two expense rows date-descending. -/
theorem claim_C5_witness :
    ((stateU.transactions.filter
        (matchesQuery "U" (some "Food") none none)).length ≤ 1000) ∧
    get_transactions stateU "U" (some "Food") none none
      = [txFood20, txFood50] :=
  ⟨by decide,
   (claim_C5_list_filters stateU "U" (some "Food") none none
      (by decide)).2.2.2.2.2.2⟩

/-! ## Association-list (Python dict) lemmas for the aggregation loops -/

/-- Looking up after a value-update at key `k0` (which fixes every
entry's key): at `k0` the stored value is mapped, elsewhere nothing
changes. -/
lemma lookup_map_updateKey {κ β : Type} [BEq κ] [LawfulBEq κ] [DecidableEq κ]
    (m : List (κ × β)) (k0 c : κ) (f : β → β) :
    (m.map fun p => if p.1 = k0 then (p.1, f p.2) else p).lookup c
      = if c = k0 then (m.lookup c).map f else m.lookup c := by
  induction m with
  | nil => simp
  | cons p m ih =>
    obtain ⟨k, v⟩ := p
    by_cases hck : c = k
    · subst hck
      by_cases hk : c = k0
      · subst hk
        simp [List.lookup_cons]
      · simp [List.lookup_cons, hk]
    · have hb : (c == k) = false := beq_eq_false_iff_ne.mpr hck
      by_cases hk : k = k0
      · subst hk
        have hne : ¬ c = k := hck
        simp only [List.map_cons, eq_self_iff_true, if_true, List.lookup_cons,
          hb]
        rw [ih]
      · simp only [List.map_cons, if_neg hk, List.lookup_cons, hb]
        rw [ih]

/-- Looking up after the insert-if-absent step: at the inserted key the
result is the prior value or the default, elsewhere nothing changes. -/
lemma lookup_ensure {κ β : Type} [BEq κ] [LawfulBEq κ] [DecidableEq κ]
    (m : List (κ × β)) (k c : κ) (v : β) :
    (if (m.lookup k).isSome then m else m ++ [(k, v)]).lookup c
      = if c = k then some ((m.lookup k).getD v) else m.lookup c := by
  by_cases hs : (m.lookup k).isSome
  · rw [if_pos hs]
    by_cases hc : c = k
    · subst hc
      obtain ⟨w, hw⟩ := Option.isSome_iff_exists.mp hs
      simp [hw]
    · simp [hc]
  · rw [if_neg hs]
    have hk : m.lookup k = none := Option.not_isSome_iff_eq_none.mp hs
    rw [List.lookup_append]
    by_cases hc : c = k
    · subst hc
      rw [hk]
      simp [List.lookup_cons]
    · have : ¬ c == k := by simpa using hc
      simp only [List.lookup_cons, this, if_neg hc]
      cases hmc : m.lookup c <;> simp [List.lookup_nil]

/-- `lookup_map_updateKey` specialised to the `+= amount` update of the
breakdown loop. -/
lemma lookup_map_addAmount (m : List (String × ℚ)) (k0 c : String) (a : ℚ) :
    (m.map fun p => if p.1 = k0 then (p.1, p.2 + a) else p).lookup c
      = if c = k0 then (m.lookup c).map (· + a) else m.lookup c :=
  lookup_map_updateKey m k0 c (fun x => x + a)

/-- Effect of one `category_breakdown` iteration on a lookup. -/
lemma bdStep_lookup (m : List (String × ℚ)) (t : Transaction) (c : String) :
    (bdStep m t).lookup c =
      if c = t.category then some (((m.lookup c).getD 0) + t.amount)
      else m.lookup c := by
  have h1 : bdStep m t =
      (if (m.lookup t.category).isSome then m else m ++ [(t.category, 0)]).map
        (fun p => if p.1 = t.category then (p.1, p.2 + t.amount) else p) := rfl
  rw [h1, lookup_map_addAmount, lookup_ensure]
  by_cases hc : c = t.category
  · subst hc; simp
  · simp [hc]

/-- When no transaction carries category `c`, its total is zero. -/
lemma sumCat_eq_zero {ts : List Transaction} {c : String}
    (h : ts.any (fun t => t.category == c) = false) : sumCat ts c = 0 := by
  unfold sumCat
  have hnil : ts.filter (fun t => t.category == c) = [] := by
    rw [List.filter_eq_nil_iff]
    intro t ht
    exact (List.any_eq_false.mp h) t ht
  simp [hnil]

/-- Folding the breakdown loop over `ts` from any starting dict: each
key ends at its starting value (default 0) plus the category total. -/
lemma foldl_bdStep_lookup (ts : List Transaction) (m : List (String × ℚ))
    (c : String) :
    (ts.foldl bdStep m).lookup c =
      if ts.any (fun t => t.category == c)
      then some (((m.lookup c).getD 0) + sumCat ts c)
      else m.lookup c := by
  induction ts generalizing m with
  | nil => simp [sumCat]
  | cons t ts ih =>
    rw [List.foldl_cons, ih, bdStep_lookup]
    by_cases hc : c = t.category
    · have hcat : (t.category == c) = true := by simp [hc]
      have hsum : sumCat (t :: ts) c = t.amount + sumCat ts c := by
        unfold sumCat
        simp [List.filter_cons, hcat]
      by_cases ha : ts.any (fun x => x.category == c)
      · simp only [if_pos hc, ha, if_true, List.any_cons, hcat, Bool.true_or,
          hsum, Option.getD_some]
        rw [add_assoc]
      · simp only [ha, if_false, Bool.false_eq_true, if_pos hc, List.any_cons,
          hcat, Bool.true_or, if_true, hsum]
        rw [sumCat_eq_zero (by simpa using ha)]
        rw [add_zero]
    · have hcat : (t.category == c) = false := by
        simp only [beq_eq_false_iff_ne, ne_eq]
        exact fun hcc => hc hcc.symm
      have hsum : sumCat (t :: ts) c = sumCat ts c := by
        unfold sumCat
        simp [List.filter_cons, hcat]
      simp [List.any_cons, hcat, hc, hsum]

/-- C3 (amended).  For a caller whose stored transactions fit in the
1000-document read cap, dashboard stats return the income sum, the
expense sum, their difference as balance, the row count, and a category
breakdown mapping each occurring category to the sum of its amounts
across both types (absent categories are absent); the spec's
three-transaction scenario yields exactly
total_income=2000, total_expenses=70, balance=1930, count=3,
breakdown Food ↦ 70, Salary ↦ 2000. -/
theorem claim_C3_dashboard_stats (s : ServerState) (uid : String)
    (hle : (s.transactions.filter (fun t => t.user_id == uid)).length ≤ 1000) :
    (get_dashboard_stats s uid).total_income
      = (((s.transactions.filter (fun t => t.user_id == uid)).filter
          (fun t => t.type == "income")).map (·.amount)).sum ∧
    (get_dashboard_stats s uid).total_expenses
      = (((s.transactions.filter (fun t => t.user_id == uid)).filter
          (fun t => t.type == "expense")).map (·.amount)).sum ∧
    (get_dashboard_stats s uid).balance
      = (get_dashboard_stats s uid).total_income
        - (get_dashboard_stats s uid).total_expenses ∧
    (get_dashboard_stats s uid).transactions_count
      = (s.transactions.filter (fun t => t.user_id == uid)).length ∧
    (∀ c, (get_dashboard_stats s uid).category_breakdown.lookup c
      = if (s.transactions.filter (fun t => t.user_id == uid)).any
            (fun t => t.category == c)
        then some (sumCat (s.transactions.filter (fun t => t.user_id == uid)) c)
        else none) ∧
    get_dashboard_stats stateU "U"
      = { total_income := 2000, total_expenses := 70, balance := 1930,
          transactions_count := 3,
          category_breakdown := [("Food", 70), ("Salary", 2000)] } := by
  have htake : (s.transactions.filter (fun t => t.user_id == uid)).take 1000
      = s.transactions.filter (fun t => t.user_id == uid) :=
    List.take_of_length_le hle
  refine ⟨?_, ?_, ?_, ?_, ?_, ?_⟩
  · simp [get_dashboard_stats, htake]
  · simp [get_dashboard_stats, htake]
  · simp [get_dashboard_stats, htake]
  · simp [get_dashboard_stats, htake]
  · intro c
    simp only [get_dashboard_stats, htake]
    rw [foldl_bdStep_lookup]
    simp
  · show get_dashboard_stats stateU "U" = _
    simp only [get_dashboard_stats, stateU, txFood50, txSalary2000, txFood20]
    simp [bdStep, List.lookup, DashboardStats.mk.injEq]
    norm_num

set_option maxRecDepth 8000 in
/-- Counterexample to C3 as stated: with 1001 transactions inserted for
the caller, the handler's `.to_list(1000)` read cap makes
`transactions_count` report 1000, not the count (1001) of all caller
transactions. -/
theorem claim_C3_counterexample :
    (get_dashboard_stats bigState "U").transactions_count
      ≠ (bigState.transactions.filter (fun t => t.user_id == "U")).length := by
  have hfil : bigState.transactions.filter (fun t => t.user_id == "U")
      = bigState.transactions := by
    rw [List.filter_eq_self]
    intro t ht
    simp only [bigState, List.mem_map] at ht
    obtain ⟨i, -, rfl⟩ := ht
    simp [bigTx]
  have hlen : bigState.transactions.length = 1001 := by
    show ((List.range 1001).map _).length = 1001
    rw [List.length_map, List.length_range]
  have hcount : (get_dashboard_stats bigState "U").transactions_count = 1000 := by
    simp only [get_dashboard_stats, hfil]
    rw [List.length_take, hlen]
    omega
  rw [hcount, hfil, hlen]
  omega

/-- Witness for C3 (amended): the scenario store is under the cap and
produces exactly the stats the spec's scenario demands. -/
theorem claim_C3_witness :
    ((stateU.transactions.filter (fun t => t.user_id == "U")).length ≤ 1000) ∧
    get_dashboard_stats stateU "U"
      = { total_income := 2000, total_expenses := 70, balance := 1930,
          transactions_count := 3,
          category_breakdown := [("Food", 70), ("Salary", 2000)] } :=
  ⟨by simp [stateU, txFood50, txSalary2000, txFood20],
   (claim_C3_dashboard_stats stateU "U"
      (by simp [stateU, txFood50, txSalary2000, txFood20])).2.2.2.2.2⟩

/-- `lookup_map_updateKey` specialised to the bucket update of the
monthly-analytics loop. -/
lemma lookup_map_addTxn (m : List ((Nat × Nat) × MonthData))
    (k0 c : Nat × Nat) (t : Transaction) :
    (m.map fun p => if p.1 = k0 then (p.1, addTxn t p.2) else p).lookup c
      = if c = k0 then (m.lookup c).map (addTxn t) else m.lookup c :=
  lookup_map_updateKey m k0 c (addTxn t)

/-- Effect of one monthly-analytics iteration on a lookup. -/
lemma monthStep_lookup (m : List ((Nat × Nat) × MonthData))
    (t : Transaction) (k : Nat × Nat) :
    (monthStep m t).lookup k =
      if k = monthKey t.date
      then some (addTxn t ((m.lookup k).getD { income := 0, expenses := 0 }))
      else m.lookup k := by
  have h1 : monthStep m t =
      (if (m.lookup (monthKey t.date)).isSome then m
       else m ++ [(monthKey t.date, { income := 0, expenses := 0 })]).map
        (fun p => if p.1 = monthKey t.date then (p.1, addTxn t p.2) else p) :=
    rfl
  rw [h1, lookup_map_addTxn, lookup_ensure]
  by_cases hk : k = monthKey t.date
  · subst hk; simp
  · simp [hk]

/-- A month with no transactions has zero income total. -/
lemma sumIncMonth_eq_zero {ts : List Transaction} {k : Nat × Nat}
    (h : ts.any (fun t => monthKey t.date == k) = false) :
    sumIncMonth ts k = 0 := by
  unfold sumIncMonth
  have hnil : ts.filter
      (fun t => monthKey t.date == k && t.type == "income") = [] := by
    rw [List.filter_eq_nil_iff]
    intro t ht
    have hf : (monthKey t.date == k) = false := by
      have := List.any_eq_false.mp h t ht
      simpa using this
    simp [hf]
  simp [hnil]

/-- A month with no transactions has zero non-income total. -/
lemma sumNonIncMonth_eq_zero {ts : List Transaction} {k : Nat × Nat}
    (h : ts.any (fun t => monthKey t.date == k) = false) :
    sumNonIncMonth ts k = 0 := by
  unfold sumNonIncMonth
  have hnil : ts.filter
      (fun t => monthKey t.date == k && !(t.type == "income")) = [] := by
    rw [List.filter_eq_nil_iff]
    intro t ht
    have hf : (monthKey t.date == k) = false := by
      have := List.any_eq_false.mp h t ht
      simpa using this
    simp [hf]
  simp [hnil]

/-- When every transaction's `type` is `"income"` or `"expense"` (the
declared data model), the else-branch total is exactly the expense
total. -/
lemma sumNonIncMonth_eq_sumExpMonth {ts : List Transaction} {k : Nat × Nat}
    (h : ∀ t ∈ ts, t.type = "income" ∨ t.type = "expense") :
    sumNonIncMonth ts k = sumExpMonth ts k := by
  unfold sumNonIncMonth sumExpMonth
  have : ts.filter (fun t => monthKey t.date == k && !(t.type == "income"))
      = ts.filter (fun t => monthKey t.date == k && t.type == "expense") := by
    apply List.filter_congr
    intro t ht
    rcases h t ht with h1 | h1 <;> simp [h1]
  rw [this]

/-- Folding the grouping loop over `ts` from any starting dict: each
month bucket ends at its starting value (default zero) plus the month's
separate income and non-income totals; untouched months keep their
prior binding (in particular, absent months stay absent). -/
lemma foldl_monthStep_lookup (ts : List Transaction)
    (m : List ((Nat × Nat) × MonthData)) (k : Nat × Nat) :
    (ts.foldl monthStep m).lookup k =
      if ts.any (fun t => monthKey t.date == k)
      then some
        { income := ((m.lookup k).getD
            { income := 0, expenses := 0 }).income + sumIncMonth ts k,
          expenses := ((m.lookup k).getD
            { income := 0, expenses := 0 }).expenses + sumNonIncMonth ts k }
      else m.lookup k := by
  induction ts generalizing m with
  | nil => simp [sumIncMonth, sumNonIncMonth]
  | cons t ts ih =>
    rw [List.foldl_cons, ih, monthStep_lookup]
    by_cases hk : k = monthKey t.date
    · have hkb : (monthKey t.date == k) = true := by simp [hk]
      by_cases hinc : (t.type == "income") = true
      · have hInc : sumIncMonth (t :: ts) k
            = t.amount + sumIncMonth ts k := by
          unfold sumIncMonth
          simp [List.filter_cons, hkb, hinc]
        have hNon : sumNonIncMonth (t :: ts) k = sumNonIncMonth ts k := by
          unfold sumNonIncMonth
          simp [List.filter_cons, hkb, hinc]
        by_cases ha : ts.any (fun x => monthKey x.date == k) = true
        · simp only [if_pos hk, ha, if_true, List.any_cons, hkb, Bool.true_or,
            Option.getD_some, hInc, hNon, addTxn, hinc, if_true]
          simp [MonthData.mk.injEq, add_assoc]
        · have ha' : ts.any (fun x => monthKey x.date == k) = false := by
            simpa using ha
          simp only [if_pos hk, ha', Bool.false_eq_true, if_false,
            List.any_cons, hkb, Bool.true_or, if_true, hInc, hNon,
            sumIncMonth_eq_zero ha', sumNonIncMonth_eq_zero ha',
            addTxn, hinc, if_true]
          simp
      · have hinc' : (t.type == "income") = false := by simpa using hinc
        have hInc : sumIncMonth (t :: ts) k = sumIncMonth ts k := by
          unfold sumIncMonth
          simp [List.filter_cons, hkb, hinc']
        have hNon : sumNonIncMonth (t :: ts) k
            = t.amount + sumNonIncMonth ts k := by
          unfold sumNonIncMonth
          simp [List.filter_cons, hkb, hinc']
        by_cases ha : ts.any (fun x => monthKey x.date == k) = true
        · simp only [if_pos hk, ha, if_true, List.any_cons, hkb, Bool.true_or,
            Option.getD_some, hInc, hNon, addTxn, hinc', Bool.false_eq_true,
            if_false]
          simp [MonthData.mk.injEq, add_assoc]
        · have ha' : ts.any (fun x => monthKey x.date == k) = false := by
            simpa using ha
          simp only [if_pos hk, ha', Bool.false_eq_true, if_false,
            List.any_cons, hkb, Bool.true_or, if_true, hInc, hNon,
            sumIncMonth_eq_zero ha', sumNonIncMonth_eq_zero ha',
            addTxn, hinc', if_false]
          simp
    · have hkb : (monthKey t.date == k) = false := by
        simp only [beq_eq_false_iff_ne, ne_eq]
        exact fun hcc => hk hcc.symm
      have hInc : sumIncMonth (t :: ts) k = sumIncMonth ts k := by
        unfold sumIncMonth
        simp [List.filter_cons, hkb]
      have hNon : sumNonIncMonth (t :: ts) k = sumNonIncMonth ts k := by
        unfold sumNonIncMonth
        simp [List.filter_cons, hkb]
      simp [List.any_cons, hkb, hk, hInc, hNon]

/-- C4.  Monthly analytics considers only the caller's transactions
whose `date` lies in the trailing 365 days from `now` (and fit the
1000-document read cap), buckets them by the calendar year-month of the
transaction's `date` field, and maps each occurring bucket to the
separate income sum (`type = "income"`) and expense sum
(`type = "expense"`, given the data model's type invariant) of that
month; year-months with no transactions are absent from the result. -/
theorem claim_C4_monthly_analytics (s : ServerState) (uid : String)
    (now : Nat)
    (htype : ∀ t ∈ s.transactions, t.type = "income" ∨ t.type = "expense")
    (hle : (s.transactions.filter
        (fun t => t.user_id == uid && inWindow now t)).length ≤ 1000) :
    ∀ k, (get_monthly_analytics s uid now).lookup k =
      if (s.transactions.filter
            (fun t => t.user_id == uid && inWindow now t)).any
          (fun t => monthKey t.date == k)
      then some
        { income := sumIncMonth (s.transactions.filter
            (fun t => t.user_id == uid && inWindow now t)) k,
          expenses := sumExpMonth (s.transactions.filter
            (fun t => t.user_id == uid && inWindow now t)) k }
      else none := by
  intro k
  have htake : (s.transactions.filter
        (fun t => t.user_id == uid && inWindow now t)).take 1000
      = s.transactions.filter (fun t => t.user_id == uid && inWindow now t) :=
    List.take_of_length_le hle
  have hW : ∀ t ∈ s.transactions.filter
      (fun t => t.user_id == uid && inWindow now t),
      t.type = "income" ∨ t.type = "expense" :=
    fun t ht => htype t (List.mem_of_mem_filter ht)
  simp only [get_monthly_analytics, htake]
  rw [foldl_monthStep_lookup, sumNonIncMonth_eq_sumExpMonth hW]
  simp

/-- Witness for C4: the scenario store at `now = 1000` (all three rows
fall in the window and in the 1970-01 bucket). -/
theorem claim_C4_witness :
    ((∀ t ∈ stateU.transactions, t.type = "income" ∨ t.type = "expense") ∧
      (stateU.transactions.filter
        (fun t => t.user_id == "U" && inWindow 1000 t)).length ≤ 1000) ∧
    (get_monthly_analytics stateU "U" 1000).lookup (1970, 1) =
      (if (stateU.transactions.filter
            (fun t => t.user_id == "U" && inWindow 1000 t)).any
          (fun t => monthKey t.date == (1970, 1))
       then some
        { income := sumIncMonth (stateU.transactions.filter
            (fun t => t.user_id == "U" && inWindow 1000 t)) (1970, 1),
          expenses := sumExpMonth (stateU.transactions.filter
            (fun t => t.user_id == "U" && inWindow 1000 t)) (1970, 1) }
       else none) :=
  ⟨⟨by decide, by decide⟩,
   claim_C4_monthly_analytics stateU "U" 1000 (by decide) (by decide) (1970, 1)⟩

end ExpenseTracker
